import Mathlib

/-!
Shallow embedding of the `mapservice` routing API (repository
`thanhlenguyen/mapservice`, files `src/routing-api/app.py` and
`src/routing-api/app copy.py`).

The repository is a Flask service that delegates graph storage, nearest
neighbour search and shortest-path computation to a PostGIS database with
the pgRouting extension.  The Python code contains the orchestration
logic: parsing the four query parameters, the SQL text it sends to the
database (the nearest-vertex query, the `cost > 0` edge filter handed to
`pgr_dijkstra`, the geometry fetch ordered by `ARRAY_POSITION`), the
distance-threshold check (`> 0.1` degrees), the vertex-id truthiness
check, and the assembly of the GeoJSON response.

Numbers: the service works with SQL floats.  They are embedded as `ℚ`.
`ST_Distance` on SRID 4326 geometries is the planar Euclidean distance in
degrees; to stay inside `ℚ` the embedding carries SQUARED distances
throughout (`sqDist`), and every comparison the code makes on a distance
`d` (`d > 0.1`, `d < d2`, ties) is encoded on the squares (`d² > 1/100`,
`d² < d2²`, ...), which preserves the order and the strictness of each
comparison because distances are non-negative.  The presentation-layer
rounding of the response (`round(x, n)`, `/1000`, `/60`) is display
formatting applied after the aggregates are computed and is not modelled;
payloads carry the raw aggregates the Python variables hold.
-/

/-- A coordinate pair (lon, lat) in degrees, as stored in SRID 4326. -/
abbrev Coord : Type := ℚ × ℚ

/-- A row of `topology.vertices`: vertex id and point geometry. -/
structure Vertex where
  id : Int
  geom : Coord
deriving DecidableEq

/-- A row of `topology.ways`: edge id, endpoints, directed costs, length in
metres and the linestring geometry, ordered from source to target.
(`app.py` calls the id column `id` and the costs `cost`/`reverse_cost`;
`app copy.py` calls them `gid` and `cost_sec`/`reverse_cost_sec` — same
data, so one structure embeds both.) -/
structure Way where
  id : Int
  source : Int
  target : Int
  cost : ℚ
  reverse_cost : ℚ
  length_m : ℚ
  geom : List Coord
deriving DecidableEq

/-- The database contents both handlers query: the vertex table and the ways
table. -/
structure Graph where
  vertices : List Vertex
  ways : List Way
deriving DecidableEq

/-- Squared planar Euclidean distance between two points, the `ℚ`-valued
encoding of `ST_Distance` on point geometries (see the header note). -/
def sqDist (p q : Coord) : ℚ :=
  (p.1 - q.1) * (p.1 - q.1) + (p.2 - q.2) * (p.2 - q.2)

/-- Squared distance from point `p` to the segment `[a, b]`, by clamping the
orthogonal-projection parameter to `[0, 1]`; exact in `ℚ`. -/
def sqDistPointSeg (p a b : Coord) : ℚ :=
  let dx := b.1 - a.1
  let dy := b.2 - a.2
  let len2 := dx * dx + dy * dy
  if len2 = 0 then sqDist p a
  else
    let t := ((p.1 - a.1) * dx + (p.2 - a.2) * dy) / len2
    let tc := max 0 (min 1 t)
    sqDist p (a.1 + tc * dx, a.2 + tc * dy)

/-- Squared distance from a point to a linestring (minimum over its
segments): the encoding of `ST_Distance(point, linestring)` used by the
nearest-way query of `app copy.py`.  `none` for an empty geometry. -/
def sqDistPointLine (p : Coord) : List Coord → Option ℚ
  | [] => none
  | [a] => some (sqDist p a)
  | a :: b :: rest =>
    let d := sqDistPointSeg p a b
    match sqDistPointLine p (b :: rest) with
    | none => some d
    | some d2 => some (min d d2)

/-- The nearest-vertex query of `app.py` (`ORDER BY geom <-> pt LIMIT 1`
over `topology.vertices`, together with its `ST_Distance`): returns the id
of a distance-minimising vertex and its (squared) distance, `none` exactly
when the vertex table is empty.  The SQL orders only by distance, so ties
are left to the database; this executable model keeps the first minimiser
in table order.  The relation `admissibleNearest` below captures exactly
what the SQL guarantees. -/
def nearestVertex (vs : List Vertex) (p : Coord) : Option (Int × ℚ) :=
  vs.foldl
    (fun acc v =>
      match acc with
      | none => some (v.id, sqDist v.geom p)
      | some (i, d) =>
        if sqDist v.geom p < d then some (v.id, sqDist v.geom p) else some (i, d))
    none

/-- The nearest-way queries of `app copy.py` (`ORDER BY geom <-> pt LIMIT 1`
over `topology.ways`): a way minimising the (squared) distance from its
linestring to the point, with its distance; ways with empty geometry have
no distance and are skipped; `none` when no way has a geometry. -/
def nearestWay (ws : List Way) (p : Coord) : Option (Way × ℚ) :=
  ws.foldl
    (fun acc w =>
      match sqDistPointLine p w.geom with
      | none => acc
      | some d =>
        match acc with
        | none => some (w, d)
        | some (w0, d0) => if d < d0 then some (w, d) else some (w0, d0))
    none

/-- The inner edge query both handlers send to `pgr_dijkstra`:
`SELECT id, source, target, cost, reverse_cost FROM topology.ways WHERE
cost > 0` — only ways with strictly positive forward cost are handed to
the router at all. -/
def edgesSql : List Way → List Way
  | [] => []
  | w :: rest => if 0 < w.cost then w :: edgesSql rest else edgesSql rest

/-- A directed transition of the routing graph pgRouting builds from the
edge rows: the generating edge id, its endpoints in traversal order, the
traversal weight, and whether it is the reversed direction of the way. -/
structure Arc where
  edge : Int
  src : Int
  dst : Int
  weight : ℚ
  reversed : Bool
deriving DecidableEq

/-- The forward transition source→target of a way, weighted by `cost`. -/
def fwdArc (w : Way) : Arc := ⟨w.id, w.source, w.target, w.cost, false⟩

/-- The reverse transition target→source of a way, weighted by
`reverse_cost`. -/
def revArc (w : Way) : Arc := ⟨w.id, w.target, w.source, w.reverse_cost, true⟩

/-- Modelled from the spec: the repository contains no shortest-path code —
it delegates to the pgRouting extension's `pgr_dijkstra` (not under
`src/`).  Directed-graph construction follows the spec's words (§3 "only
edges with positive reverse cost are eligible for reverse traversal",
§4.3 "only if forward/reverse cost > 0"): a row contributes its forward
transition source→target only when `cost` is strictly positive, and its
reverse transition target→source only when `reverse_cost` is strictly
positive. -/
def waysArcs : List Way → List Arc
  | [] => []
  | w :: rest =>
    (if 0 < w.cost then [fwdArc w] else []) ++
    (if 0 < w.reverse_cost then [revArc w] else []) ++
    waysArcs rest

/-- A pending entry of Dijkstra's frontier: a vertex, the cost of a
discovered path to it, and that path as a list of transitions. -/
structure PQEntry where
  vid : Int
  cost : ℚ
  path : List Arc
deriving DecidableEq

/-- Frontier order: lower tentative cost first, ties broken by smaller
vertex id (the spec's deterministic expansion order, §4.3). -/
def entryLt (a b : PQEntry) : Prop :=
  a.cost < b.cost ∨ (a.cost = b.cost ∧ a.vid < b.vid)

instance (a b : PQEntry) : Decidable (entryLt a b) := by
  unfold entryLt; infer_instance

/-- Strictly-least frontier entry under `entryLt` (first one on residual
ties), `none` for an empty frontier. -/
def pickMin (l : List PQEntry) : Option PQEntry :=
  l.foldl
    (fun acc e =>
      match acc with
      | none => some e
      | some m => if entryLt e m then some e else some m)
    none

/-- Has vertex `v` already been settled? -/
def isSettled : List (Int × ℚ × List Arc) → Int → Bool
  | [], _ => false
  | s :: rest, v => if s.1 = v then true else isSettled rest v

/-- The unsettled part of the frontier. -/
def liveEntries (settled : List (Int × ℚ × List Arc)) :
    List PQEntry → List PQEntry
  | [] => []
  | e :: rest =>
    if isSettled settled e.vid then liveEntries settled rest
    else e :: liveEntries settled rest

/-- The transitions leaving vertex `v`. -/
def arcsFrom : List Arc → Int → List Arc
  | [], _ => []
  | a :: rest, v =>
    if a.src = v then a :: arcsFrom rest v else arcsFrom rest v

/-- Modelled from the spec: the Dijkstra main loop (§4.3) — repeatedly
settle the unsettled frontier vertex of least tentative cost and relax its
outgoing transitions.  Fuel bounds the iterations; each iteration settles
a fresh vertex, so any fuel beyond the vertex count leaves the result
fixed. -/
def dijkstraLoop (arcs : List Arc) :
    Nat → List (Int × ℚ × List Arc) → List PQEntry → List (Int × ℚ × List Arc)
  | 0, settled, _ => settled
  | Nat.succ fuel, settled, frontier =>
    let live := liveEntries settled frontier
    match pickMin live with
    | none => settled
    | some m =>
      let relaxed :=
        (arcsFrom arcs m.vid).map
          (fun a => PQEntry.mk a.dst (m.cost + a.weight) (m.path ++ [a]))
      dijkstraLoop arcs fuel (settled ++ [(m.vid, m.cost, m.path)]) (live ++ relaxed)

/-- The settled cost and path of vertex `v`, if it was reached. -/
def lookupSettled : List (Int × ℚ × List Arc) → Int → Option (ℚ × List Arc)
  | [], _ => none
  | s :: rest, v => if s.1 = v then some s.2 else lookupSettled rest v

/-- One output row of `pgr_dijkstra` (the `seq` column is the list
position): the vertex the walker stands on, the edge it leaves by (`-1` on
the final row), that edge's traversal cost, and the aggregate cost from
the start to `node`. -/
structure PathRow where
  node : Int
  edge : Int
  cost : ℚ
  agg_cost : ℚ
deriving DecidableEq

/-- Rows of a found path: one row per transition, then the terminal row
`(node = destination, edge = -1, cost = 0, agg_cost = total)`. -/
def rowsOfPath : Int → ℚ → List Arc → List PathRow
  | v, agg, [] => [⟨v, -1, 0, agg⟩]
  | v, agg, a :: rest => ⟨v, a.edge, a.weight, agg⟩ :: rowsOfPath a.dst (agg + a.weight) rest

/-- Modelled from the spec: `pgr_dijkstra(edge rows, s, t, directed)` — the
shortest-path routine the handlers call, absent from `src/`.  Runs the
Dijkstra model over the transitions of the already-filtered edge rows and
renders the settled path to `t` in pgRouting's row format; an unreachable
destination yields no rows, and `s = t` yields the spec-mandated trivial
success (§4.3: empty edge list, aggregate cost 0), i.e. the terminal row
alone. -/
def pgrDijkstra (edges : List Way) (s t : Int) : List PathRow :=
  let arcs := waysArcs edges
  let settled := dijkstraLoop arcs (2 * edges.length + 1) [] [⟨s, 0, []⟩]
  match lookupSettled settled t with
  | none => []
  | some (_, p) => rowsOfPath s 0 p

/-- The path rows `app.py` obtains for a vertex pair: `pgr_dijkstra` applied
to the `WHERE cost > 0` edge rows. -/
def appPath (g : Graph) (sv ev : Int) : List PathRow :=
  pgrDijkstra (edgesSql g.ways) sv ev

/-- The edge-id extraction of `app.py` step 3:
`[row['edge'] for row in path if row['edge'] != -1]`. -/
def edgeIdsOfRows : List PathRow → List Int
  | [] => []
  | r :: rest =>
    if r.edge = -1 then edgeIdsOfRows rest else r.edge :: edgeIdsOfRows rest

/-- The edge ids `app.py` extracts from the rows of a vertex pair. -/
def routeEdgeIds (g : Graph) (sv ev : Int) : List Int :=
  edgeIdsOfRows (appPath g sv ev)

/-- First occurrence of each element, in order of first appearance: the
order `ORDER BY ARRAY_POSITION(ids, id)` induces on the distinct matches
of `WHERE id = ANY(ids)`. -/
def dedupFirst (l : List Int) : List Int :=
  l.foldl (fun acc x => if x ∈ acc then acc else acc ++ [x]) []

/-- The first way of the table carrying a given id (`id` is the primary
key, so it is the only one). -/
def findWay : List Way → Int → Option Way
  | [], _ => none
  | w :: rest, i => if w.id = i then some w else findWay rest i

/-- The geometry-fetch query of both handlers: the ways whose id occurs in
`edgeIds`, one row per matching way (`id` is the table's primary key, so
ids are unique within `ws`), ordered by the first position of their id. -/
def fetchSegments (edgeIds : List Int) (ws : List Way) : List Way :=
  (dedupFirst edgeIds).filterMap (fun i => findWay ws i)

/-- A GeoJSON feature of the response: the segment id, its emitted
coordinate sequence, and its raw length in metres. -/
structure Feature where
  id : Int
  geometry : List Coord
  length_m : ℚ
deriving DecidableEq

/-- The success payload of `app.py`'s `/route` (raw aggregates, before the
display rounding — see the header note). -/
structure RoutePayload where
  features : List Feature
  total_distance : ℚ
  total_cost : ℚ
  segment_count : Nat
  start_vertex : Int
  end_vertex : Int
deriving DecidableEq

/-- The Python exceptions the handlers can raise while computing (both are
caught by the blanket `except Exception` and turned into a 500 response):
`float(None)` raises `TypeError`, a missing `request.args[...]` key raises
`KeyError` in `app copy.py`, and `None > 0.1` raises `TypeError`. -/
inductive PyErr where
  | floatOfNone
  | keyError
  | noneCompare
deriving DecidableEq

/-- The distinguishable outcomes of `app.py`'s `get_route`:
the `Missing coordinates` 400, the too-far 404 (carrying the two reported
distances), the `Could not snap to network` 404, the `No route found` 404,
the 200 feature collection, and the blanket 500 of the `except` clause. -/
inductive GetRouteResult where
  | missingCoords
  | tooFar (start_distance end_distance : ℚ)
  | snapFail
  | noRoute
  | ok (p : RoutePayload)
  | serverError (e : PyErr)
deriving DecidableEq

/-- Python's `float(x)` on an argument that is either a numeric string or
`None` (`request.args.get` returns `None` for a missing parameter):
raises `TypeError` on `None`.  Query values that parse are carried as the
parsed number; a malformed string would raise into the same blanket
`except`, which this model does not distinguish. -/
def pyFloat (v : Option ℚ) : Except PyErr ℚ :=
  match v with
  | none => Except.error PyErr.floatOfNone
  | some q => Except.ok q

/-- A Python value as inspected by the `None in (...)` membership test of
`app.py` line 42: either `None` or a float. -/
inductive PyVal where
  | pynone
  | num (q : ℚ)
deriving DecidableEq

/-- The test `None in (start_lon, start_lat, end_lon, end_lat)`. -/
def noneIn : List PyVal → Bool
  | [] => false
  | PyVal.pynone :: _ => true
  | PyVal.num _ :: rest => noneIn rest

/-- Python's `d > 0.1` where `d` may be `None` (squared encoding: the
threshold 0.1 degrees becomes 1/100): raises `TypeError` on `None`. -/
def pyGtThreshold (d : Option ℚ) : Except PyErr Bool :=
  match d with
  | none => Except.error PyErr.noneCompare
  | some q => if (1 : ℚ)/100 < q then Except.ok true else Except.ok false

/-- The short-circuit test of `app.py` line 72:
`start_distance > 0.1 or end_distance > 0.1`. -/
def tooFarTest (d1 d2 : Option ℚ) : Except PyErr Bool :=
  match pyGtThreshold d1 with
  | Except.error e => Except.error e
  | Except.ok true => Except.ok true
  | Except.ok false => pyGtThreshold d2

/-- Python's `path[-1]` guarded by `if not path`: the last row of the list,
`none` when there is none. -/
def lastRow : List PathRow → Option PathRow
  | [] => none
  | [r] => some r
  | _ :: r :: rest => lastRow (r :: rest)

/-- The success payload built by steps 3–5 of `get_route` from the path
rows: edge ids, fetched segments, features carrying each segment's stored
geometry verbatim, the summed raw lengths, and the terminal row's
aggregate cost. -/
def payloadOfPath (g : Graph) (sv ev : Int) (path : List PathRow)
    (last : PathRow) : RoutePayload :=
  let edge_ids := edgeIdsOfRows path
  let segments := fetchSegments edge_ids g.ways
  let features := segments.map (fun w => Feature.mk w.id w.geom w.length_m)
  ⟨features, (segments.map Way.length_m).sum, last.agg_cost, features.length, sv, ev⟩

/-- The body of `get_route` after the four parameters have been parsed,
taking the two nearest-vertex query results (id, squared distance) as
arguments: the distance-threshold check (line 72), the truthiness check
`if not start_vid or not end_vid` (line 80, under which both `None` and
the id `0` count as falsy), `pgr_dijkstra`, the
`not path or path[-1]['node'] != end_vid` check (line 97), and the
response assembly. -/
def getRouteCore (g : Graph) (snapStart snapEnd : Option (Int × ℚ)) :
    GetRouteResult :=
  let start_vid := snapStart.map Prod.fst
  let end_vid := snapEnd.map Prod.fst
  let start_distance := snapStart.map Prod.snd
  let end_distance := snapEnd.map Prod.snd
  match tooFarTest start_distance end_distance with
  | Except.error e => GetRouteResult.serverError e
  | Except.ok true =>
    GetRouteResult.tooFar (start_distance.getD 0) (end_distance.getD 0)
  | Except.ok false =>
    match start_vid, end_vid with
    | some sv, some ev =>
      if sv = 0 ∨ ev = 0 then GetRouteResult.snapFail
      else
        let path := appPath g sv ev
        match lastRow path with
        | none => GetRouteResult.noRoute
        | some last =>
          if last.node ≠ ev then GetRouteResult.noRoute
          else GetRouteResult.ok (payloadOfPath g sv ev path last)
    | _, _ => GetRouteResult.snapFail

/-- The four raw query parameters of a request, each `none` when missing
(numeric when present — see `pyFloat`). -/
structure RouteArgs where
  start_lon : Option ℚ
  start_lat : Option ℚ
  end_lon : Option ℚ
  end_lat : Option ℚ
deriving DecidableEq

/-- The `/route` handler of `app.py` (`get_route`): parse the four
parameters with `float` (left to right, a missing one raising `TypeError`
into the blanket `except`), the — dead — `None in (...)` check of
line 42, the nearest-vertex queries, then `getRouteCore`. -/
def getRoute (g : Graph) (a : RouteArgs) : GetRouteResult :=
  match pyFloat a.start_lon, pyFloat a.start_lat,
        pyFloat a.end_lon, pyFloat a.end_lat with
  | Except.ok slon, Except.ok slat, Except.ok elon, Except.ok elat =>
    if noneIn [PyVal.num slon, PyVal.num slat, PyVal.num elon, PyVal.num elat] then
      GetRouteResult.missingCoords
    else
      getRouteCore g (nearestVertex g.vertices (slon, slat))
        (nearestVertex g.vertices (elon, elat))
  | Except.error e, _, _, _ => GetRouteResult.serverError e
  | _, Except.error e, _, _ => GetRouteResult.serverError e
  | _, _, Except.error e, _ => GetRouteResult.serverError e
  | _, _, _, Except.error e => GetRouteResult.serverError e

/-- `float(request.args['k'])` in `app copy.py`: a missing key raises
`KeyError` (there is no `.get` default there). -/
def pyArgsGet (v : Option ℚ) : Except PyErr ℚ :=
  match v with
  | none => Except.error PyErr.keyError
  | some q => Except.ok q

/-- The `WHERE edge > 0` filter `app copy.py` applies to the `pgr_dijkstra`
rows before using them. -/
def rowsEdgePos : List PathRow → List PathRow
  | [] => []
  | r :: rest =>
    if 0 < r.edge then r :: rowsEdgePos rest else rowsEdgePos rest

/-- The edge ids `app copy.py` extracts: `[seg[2] for seg in route_segments]`
(no further filtering — the `edge > 0` filter already ran in SQL). -/
def copyEdgeIds : List PathRow → List Int
  | [] => []
  | r :: rest => r.edge :: copyEdgeIds rest

/-- The response-assembly loop of `app copy.py`: for each fetched segment
row, `if geojson:` append a feature carrying the stored geometry, and
`if length_m:` add the raw length to the running total.  Returns the
features in loop order and the accumulated total distance. -/
def copyAssemble : List Way → List Feature × ℚ
  | [] => ([], 0)
  | w :: rest =>
    match w.geom with
    | [] => copyAssemble rest
    | c :: cs =>
      let acc := copyAssemble rest
      (Feature.mk w.id (c :: cs) w.length_m :: acc.1,
        (if w.length_m = 0 then 0 else w.length_m) + acc.2)

/-- The distinguishable outcomes of `app copy.py`'s `route` handler:
the could-not-find-nearby-roads 404, the 200 response that nonetheless
carries `"error": "Start and end points are on the same road segment"`
with an empty feature list, the no-route-found 200 error response
(carrying the two node ids it reports), the success 200, and the blanket
500. -/
inductive AppCopyResult where
  | noNearby
  | sameSegment
  | noRouteFound (start_node end_node : Int)
  | ok (features : List Feature) (total_cost total_distance : ℚ)
  | serverError (e : PyErr)
deriving DecidableEq

/-- The `/route` handler of `app copy.py`: parse the four parameters, snap
the start point to the `source` vertex of its nearest way and the end
point to the `target` vertex of its nearest way, special-case
`start_node == end_node` as the same-road-segment error response, then
`pgr_dijkstra` (same `cost > 0` inner query, rows filtered to
`edge > 0`), the `if not route_segments` check, and the assembly loop.
`total_cost` is `route_segments[-1][4]`, the `agg_cost` of the last
edge-filtered row. -/
def appCopyRoute (g : Graph) (a : RouteArgs) : AppCopyResult :=
  match pyArgsGet a.start_lon, pyArgsGet a.start_lat,
        pyArgsGet a.end_lon, pyArgsGet a.end_lat with
  | Except.ok slon, Except.ok slat, Except.ok elon, Except.ok elat =>
    match nearestWay g.ways (slon, slat), nearestWay g.ways (elon, elat) with
    | some (ws, _sd), some (we, _ed) =>
      let start_node := ws.source
      let end_node := we.target
      if start_node = end_node then AppCopyResult.sameSegment
      else
        let rows := rowsEdgePos (pgrDijkstra (edgesSql g.ways) start_node end_node)
        match lastRow rows with
        | none => AppCopyResult.noRouteFound start_node end_node
        | some last =>
          let segments := fetchSegments (copyEdgeIds rows) g.ways
          let asm := copyAssemble segments
          AppCopyResult.ok asm.1 last.agg_cost asm.2
    | _, _ => AppCopyResult.noNearby
  | Except.error e, _, _, _ => AppCopyResult.serverError e
  | _, Except.error e, _, _ => AppCopyResult.serverError e
  | _, _, Except.error e, _ => AppCopyResult.serverError e
  | _, _, _, Except.error e => AppCopyResult.serverError e

/-- Vertex `v` is one of the vertices nearest to `p` (squared-distance
minimiser over the vertex table). -/
def minimizesVertex (vs : List Vertex) (p : Coord) (v : Vertex) : Prop :=
  v ∈ vs ∧ ∀ w ∈ vs, sqDist v.geom p ≤ sqDist w.geom p

/-- What the nearest-vertex SQL of `app.py` actually guarantees about its
result: `ORDER BY geom <-> pt LIMIT 1` orders by distance only, so on
ties ANY minimising vertex may be returned — the id and the reported
distance must merely belong to some minimiser; the result is `none`
exactly when the vertex table is empty. -/
def admissibleNearest (vs : List Vertex) (p : Coord) : Option (Int × ℚ) → Prop
  | none => vs = []
  | some (i, d) => ∃ v, minimizesVertex vs p v ∧ v.id = i ∧ sqDist v.geom p = d

/-- The outcome relation of `get_route` when the database's tie choice in
the nearest-vertex query is left unspecified (see `admissibleNearest`):
everything after the two snaps is the deterministic `getRouteCore`. -/
def getRouteRel (g : Graph) (a : RouteArgs) (r : GetRouteResult) : Prop :=
  match pyFloat a.start_lon, pyFloat a.start_lat,
        pyFloat a.end_lon, pyFloat a.end_lat with
  | Except.ok slon, Except.ok slat, Except.ok elon, Except.ok elat =>
    ∃ n1 n2, admissibleNearest g.vertices (slon, slat) n1 ∧
      admissibleNearest g.vertices (elon, elat) n2 ∧
      r = (if noneIn [PyVal.num slon, PyVal.num slat,
                      PyVal.num elon, PyVal.num elat] then
             GetRouteResult.missingCoords
           else getRouteCore g n1 n2)
  | Except.error e, _, _, _ => r = GetRouteResult.serverError e
  | _, Except.error e, _, _ => r = GetRouteResult.serverError e
  | _, _, Except.error e, _ => r = GetRouteResult.serverError e
  | _, _, _, Except.error e => r = GetRouteResult.serverError e

/-- Ways with negative forward cost removed (what the amended claim C4
compares against: the `cost > 0` SQL filter makes such ways invisible). -/
def dropNegCost : List Way → List Way
  | [] => []
  | w :: rest => if w.cost < 0 then dropNegCost rest else w :: dropNegCost rest

/-- The lengths of the ways resolved from a traversal's edge ids, in
traversal order. -/
def segmentLengths (g : Graph) (sv ev : Int) : List ℚ :=
  ((routeEdgeIds g sv ev).filterMap (findWay g.ways)).map Way.length_m

/-- An empty database: no vertices, no ways. -/
def noDataGraph : Graph := ⟨[], []⟩

/-- A request with all four coordinates present and equal to (0,0)/(0,0). -/
def argsZero : RouteArgs := ⟨some 0, some 0, some 0, some 0⟩

/-- A request whose `start_lon` parameter is missing. -/
def argsMissing : RouteArgs := ⟨none, some 0, some 0, some 0⟩

/-- A one-way loop way (source = target = 1), for exercising the
same-vertex special case of `app copy.py`. -/
def loopGraph : Graph :=
  ⟨[], [⟨7, 1, 1, 3, -1, 5, [(0, 0), (1/100, 0)]⟩]⟩

/-- A way with zero forward cost and positive reverse cost: the spec calls
it reverse-traversable, the `cost > 0` edge filter drops it entirely. -/
def wayZeroFwd : Way := ⟨9, 1, 2, 0, 5, 40, [(0, 0), (1/100, 0)]⟩

/-- A way with strictly positive forward and reverse cost: traversable in
both directions. -/
def wayPosFwd : Way := ⟨8, 1, 2, 2, 3, 40, [(0, 0), (1/100, 0)]⟩

/-- A way 1→2 with NEGATIVE forward cost: bad data the spec says must fail
fast with InvalidEdgeCost. -/
def negWay : Way := ⟨11, 1, 2, -3, 5, 50, [(0, 0)]⟩

/-- An ordinary way 1→2 alongside `negWay`. -/
def okWay : Way := ⟨12, 1, 2, 4, -1, 60, [(0, 0)]⟩

/-- Two parallel ways 1→2: one with negative forward cost (silently dropped
by the edge filter), one ordinary. -/
def negCostWays : List Way := [negWay, okWay]

/-- Four collinear vertices and three ways whose shortest 1→4 path must
traverse way 2 against its stored direction (way 2 runs 3→2 with a
positive reverse cost). -/
def revGraph : Graph :=
  ⟨[⟨1, (0, 0)⟩, ⟨2, (1/100, 0)⟩, ⟨3, (2/100, 0)⟩, ⟨4, (3/100, 0)⟩],
   [⟨1, 1, 2, 1, -1, 10, [(0, 0), (1/100, 0)]⟩,
    ⟨2, 3, 2, 1, 1, 10, [(2/100, 0), (1/100, 0)]⟩,
    ⟨3, 3, 4, 1, -1, 10, [(2/100, 0), (3/100, 0)]⟩]⟩

/-- A request from (0,0) to (3/100,0), snapping to vertices 1 and 4 of
`revGraph`. -/
def revArgs : RouteArgs := ⟨some 0, some 0, some (3/100), some 0⟩

/-- The payload `get_route` produces on `revGraph`/`revArgs`: every feature
carries the STORED source→target geometry, so the polyline jumps from
(1/100,0) to (2/100,0) between features 1 and 2. -/
def revPayload : RoutePayload :=
  ⟨[⟨1, [(0, 0), (1/100, 0)], 10⟩, ⟨2, [(2/100, 0), (1/100, 0)], 10⟩,
    ⟨3, [(2/100, 0), (3/100, 0)], 10⟩], 30, 3, 3, 1, 4⟩

/-- The last coordinate of a linestring, if any. -/
def lastCoord : List Coord → Option Coord
  | [] => none
  | [c] => some c
  | _ :: c :: rest => lastCoord (c :: rest)

/-- Does each feature's geometry start where the previous one ended? (The
continuity property the spec asserts of assembled routes.) -/
def chainOk : List Feature → Bool
  | [] => true
  | [_] => true
  | f1 :: f2 :: rest =>
    if lastCoord f1.geometry = f2.geometry.head? then chainOk (f2 :: rest)
    else false

/-- A single vertex at the origin, for the boundary-distance check. -/
def boundaryGraph : Graph := ⟨[⟨1, (0, 0)⟩], []⟩

/-- A request whose coordinates lie EXACTLY 0.1 degrees from the only
vertex of `boundaryGraph` (squared distance exactly 1/100). -/
def boundaryArgs : RouteArgs := ⟨some (1/10), some 0, some (1/10), some 0⟩

/-- Two vertices (ids 2 and 3) equidistant from the start query point, a
third (id 1) at the end query point, and one way from each tied vertex to
vertex 1: the two tie choices produce observably different routes. -/
def tieGraph : Graph :=
  ⟨[⟨1, (1, 0)⟩, ⟨2, (1/100, 0)⟩, ⟨3, (-1/100, 0)⟩],
   [⟨1, 2, 1, 1, -1, 10, [(1/100, 0), (1, 0)]⟩,
    ⟨2, 3, 1, 1, -1, 20, [(-1/100, 0), (1, 0)]⟩]⟩

/-- A request from (0,0) (tied between vertices 2 and 3) to (1,0)
(uniquely vertex 1). -/
def tieArgs : RouteArgs := ⟨some 0, some 0, some 1, some 0⟩

/-- The outcome of `get_route` on `tieGraph`/`tieArgs` when the database
resolves the start tie to vertex 2. -/
def tieResultA : GetRouteResult :=
  GetRouteResult.ok ⟨[⟨1, [(1/100, 0), (1, 0)], 10⟩], 10, 1, 1, 2, 1⟩

/-- The outcome of `get_route` on `tieGraph`/`tieArgs` when the database
resolves the start tie to vertex 3. -/
def tieResultB : GetRouteResult :=
  GetRouteResult.ok ⟨[⟨2, [(-1/100, 0), (1, 0)], 20⟩], 20, 1, 1, 3, 1⟩

/-- A single vertex whose id is 0, at the origin: within threshold of the
query, yet falsy for the `if not start_vid` check. -/
def zeroIdGraph : Graph := ⟨[⟨0, (0, 0)⟩], []⟩

theorem findWay_mem {ws : List Way} {i : Int} {w : Way}
    (h : findWay ws i = some w) : w ∈ ws := by
  induction ws with
  | nil => simp [findWay] at h
  | cons x rest ih =>
    rw [findWay] at h
    split at h
    · exact (Option.some.inj h) ▸ List.mem_cons_self x rest
    · exact List.mem_cons_of_mem _ (ih h)

theorem mem_edgesSql {ws : List Way} {w : Way} :
    w ∈ edgesSql ws ↔ w ∈ ws ∧ 0 < w.cost := by
  induction ws with
  | nil => simp [edgesSql]
  | cons x rest ih =>
    rw [edgesSql]
    split
    next hx =>
      simp only [List.mem_cons, ih]
      constructor
      · rintro (rfl | ⟨hm, hc⟩)
        · exact ⟨Or.inl rfl, hx⟩
        · exact ⟨Or.inr hm, hc⟩
      · rintro ⟨rfl | hm, hc⟩
        · exact Or.inl rfl
        · exact Or.inr ⟨hm, hc⟩
    next hx =>
      rw [ih]
      simp only [List.mem_cons]
      constructor
      · rintro ⟨hm, hc⟩
        exact ⟨Or.inr hm, hc⟩
      · rintro ⟨rfl | hm, hc⟩
        · exact absurd hc hx
        · exact ⟨hm, hc⟩

theorem mem_waysArcs {ws : List Way} {a : Arc} :
    a ∈ waysArcs ws ↔
      ∃ w, w ∈ ws ∧
        ((0 < w.cost ∧ a = fwdArc w) ∨ (0 < w.reverse_cost ∧ a = revArc w)) := by
  induction ws with
  | nil => simp [waysArcs]
  | cons x rest ih =>
    rw [waysArcs]
    by_cases hc : 0 < x.cost <;> by_cases hr : 0 < x.reverse_cost <;>
      simp [hc, hr, ih, List.mem_cons]
    all_goals aesop

theorem dedupFirst_aux : ∀ (l acc : List Int), l.Nodup → (∀ x ∈ l, x ∉ acc) →
    List.foldl (fun acc x => if x ∈ acc then acc else acc ++ [x]) acc l = acc ++ l
  | [], acc, _, _ => by simp
  | x :: rest, acc, hn, hd => by
    have hx : x ∉ acc := hd x (List.mem_cons_self x rest)
    have hrest : ∀ y ∈ rest, y ∉ acc ++ [x] := by
      intro y hy hmem
      rcases List.mem_append.mp hmem with h1 | h1
      · exact hd y (List.mem_cons_of_mem x hy) h1
      · rw [List.mem_singleton] at h1
        subst h1
        exact (List.nodup_cons.mp hn).1 hy
    rw [List.foldl_cons, if_neg hx,
      dedupFirst_aux rest (acc ++ [x]) (List.Nodup.of_cons hn) hrest]
    simp

theorem dedupFirst_eq_self {l : List Int} (h : l.Nodup) : dedupFirst l = l := by
  have := dedupFirst_aux l [] h (by simp)
  simpa [dedupFirst] using this

theorem getRouteCore_ne_missing (g : Graph) (n1 n2 : Option (Int × ℚ)) :
    getRouteCore g n1 n2 ≠ GetRouteResult.missingCoords := by
  unfold getRouteCore
  dsimp only
  split
  · simp
  · simp
  · split
    · split
      · simp
      · split
        · simp
        · split
          · simp
          · simp
    · simp

theorem getRoute_ok_inv {g : Graph} {a : RouteArgs} {p : RoutePayload}
    (h : getRoute g a = GetRouteResult.ok p) :
    ∃ sv ev last, lastRow (appPath g sv ev) = some last ∧
      p = payloadOfPath g sv ev (appPath g sv ev) last := by
  unfold getRoute at h
  split at h
  case _ slon slat elon elat h1 h2 h3 h4 =>
    rw [if_neg (by simp [noneIn])] at h
    simp only [getRouteCore] at h
    split at h
    · simp at h
    · simp at h
    · split at h
      case _ sv ev hsv hev =>
        split at h
        · simp at h
        · split at h
          · simp at h
          case _ last hlast =>
            split at h
            · simp at h
            · exact ⟨sv, ev, last, hlast, (GetRouteResult.ok.inj h).symm⟩
      · simp at h
  all_goals simp at h

theorem edgesSql_dropNegCost (ws : List Way) :
    edgesSql (dropNegCost ws) = edgesSql ws := by
  induction ws with
  | nil => rfl
  | cons w rest ih =>
    rw [dropNegCost]
    split
    next hneg => simp [edgesSql, ih, not_lt.mpr (le_of_lt hneg)]
    next hpos => simp [edgesSql, ih]

/-- Claim C1: the spec says `shortest_path(v, v)` succeeds with an empty
edge list and cost 0, and the route facade returns an empty-route success
(not an error) when both coordinates snap to the same vertex.  The
spec-modelled Path Finder does succeed trivially (second conjunct:
`get_route` of `app.py` then produces a 200 payload with zero features,
zero cost, zero length), but `app copy.py`'s facade special-cases
`start_node == end_node` as the error response
`"Start and end points are on the same road segment"` (first conjunct) —
exactly the defect the spec says it corrects. -/
theorem claim1_same_vertex_handling :
    appCopyRoute loopGraph argsZero = AppCopyResult.sameSegment ∧
    getRoute boundaryGraph argsZero = GetRouteResult.ok ⟨[], 0, 0, 0, 1, 1⟩ := by
  constructor
  · norm_num [loopGraph, argsZero, appCopyRoute, pyArgsGet, nearestWay,
      sqDistPointLine, sqDistPointSeg, sqDist, List.foldl, min_def, max_def]
  · norm_num [boundaryGraph, argsZero, getRoute, getRouteCore, pyFloat, noneIn,
      nearestVertex, sqDist, tooFarTest, pyGtThreshold, appPath, pgrDijkstra,
      edgesSql, waysArcs, dijkstraLoop, pickMin, entryLt, isSettled, liveEntries,
      arcsFrom, lookupSettled, rowsOfPath, lastRow, payloadOfPath, edgeIdsOfRows,
      fetchSegments, dedupFirst, findWay, List.foldl, List.filterMap_nil,
      List.sum_nil]

/-- Claim C2 counterexample: a way with non-positive forward cost (here 0)
and strictly positive reverse cost (here 5).  The claim says it is still
traversable in reverse; in the code the `WHERE cost > 0` edge filter
removes the way entirely, so the routing graph has NO transitions at all
and `shortest_path(target, source)` finds nothing. -/
theorem claim2_counterexample :
    wayZeroFwd.cost ≤ 0 ∧ 0 < wayZeroFwd.reverse_cost ∧
    waysArcs (edgesSql [wayZeroFwd]) = [] ∧
    pgrDijkstra (edgesSql [wayZeroFwd]) 2 1 = [] := by
  refine ⟨by norm_num [wayZeroFwd], by norm_num [wayZeroFwd], ?_, ?_⟩ <;>
    norm_num [wayZeroFwd, edgesSql, waysArcs, pgrDijkstra, dijkstraLoop, pickMin,
      entryLt, isSettled, liveEntries, arcsFrom, lookupSettled, fwdArc, revArc]

/-- Claim C2 (amended): with unique way ids, an edge is usable as a forward
transition exactly when its forward cost is positive, but as a reverse
transition exactly when BOTH its forward and reverse costs are positive:
the `WHERE cost > 0` edge filter removes a way with non-positive forward
cost entirely, so its reverse transition is lost no matter its reverse
cost. -/
theorem claim2_arc_eligibility (ws : List Way) (w : Way)
    (hids : (ws.map Way.id).Nodup) (hw : w ∈ ws) :
    (fwdArc w ∈ waysArcs (edgesSql ws) ↔ 0 < w.cost) ∧
    (revArc w ∈ waysArcs (edgesSql ws) ↔ 0 < w.cost ∧ 0 < w.reverse_cost) := by
  constructor
  · constructor
    · intro hmem
      rcases mem_waysArcs.mp hmem with ⟨w2, hw2, ⟨hc2, heq⟩ | ⟨hr2, heq⟩⟩
      · have hcost : w.cost = w2.cost := congrArg Arc.weight heq
        rw [hcost]
        exact (mem_edgesSql.mp hw2).2
      · exact absurd (congrArg Arc.reversed heq) (by simp [fwdArc, revArc])
    · intro hc
      exact mem_waysArcs.mpr ⟨w, mem_edgesSql.mpr ⟨hw, hc⟩, Or.inl ⟨hc, rfl⟩⟩
  · constructor
    · intro hmem
      rcases mem_waysArcs.mp hmem with ⟨w2, hw2, ⟨hc2, heq⟩ | ⟨hr2, heq⟩⟩
      · exact absurd (congrArg Arc.reversed heq) (by simp [fwdArc, revArc])
      · have hid : w.id = w2.id := congrArg Arc.edge heq
        have hw2ways : w2 ∈ ws := (mem_edgesSql.mp hw2).1
        have hww2 : w = w2 := List.inj_on_of_nodup_map hids hw hw2ways hid
        subst hww2
        exact ⟨(mem_edgesSql.mp hw2).2, hr2⟩
    · rintro ⟨hc, hr⟩
      exact mem_waysArcs.mpr ⟨w, mem_edgesSql.mpr ⟨hw, hc⟩, Or.inr ⟨hr, rfl⟩⟩

/-- Claim C2 witness: a way with positive forward and reverse cost
contributes both its forward and its reverse transition. -/
theorem claim2_witness :
    fwdArc wayPosFwd ∈ waysArcs (edgesSql [wayPosFwd]) ∧
    revArc wayPosFwd ∈ waysArcs (edgesSql [wayPosFwd]) := by
  have h := claim2_arc_eligibility [wayPosFwd] wayPosFwd (by simp) (by simp)
  exact ⟨h.1.mpr (by norm_num [wayPosFwd]), h.2.mpr (by norm_num [wayPosFwd])⟩

/-- Claim C4 counterexample: the ways table contains a negative-forward-cost
way, yet `shortest_path(1, 2)` silently ignores it and returns a normal
path result over the remaining way — no InvalidEdgeCost failure exists
anywhere in the handler's outcome space. -/
theorem claim4_counterexample :
    negWay.cost < 0 ∧ negWay ∈ negCostWays ∧
    pgrDijkstra (edgesSql negCostWays) 1 2 =
      [⟨1, 12, 4, 0⟩, ⟨2, -1, 0, 4⟩] := by
  refine ⟨by norm_num [negWay], by simp [negCostWays], ?_⟩
  norm_num [negCostWays, negWay, okWay, pgrDijkstra, edgesSql, waysArcs, fwdArc,
    revArc, dijkstraLoop, pickMin, entryLt, isSettled, liveEntries, arcsFrom,
    lookupSettled, rowsOfPath, List.foldl]

/-- Claim C4 (amended): a negative forward cost never reaches the path
finder — the `WHERE cost > 0` edge query drops such ways before
`pgr_dijkstra` runs, so the result is identical to running on a table
with those ways removed; nothing fails fast. -/
theorem claim4_negative_cost_silently_dropped (ws : List Way) (s t : Int) :
    pgrDijkstra (edgesSql ws) s t = pgrDijkstra (edgesSql (dropNegCost ws)) s t := by
  rw [edgesSql_dropNegCost]

/-- Claim C6 counterexample: with no vertices loaded, `get_route` returns
the blanket `except Exception` 500 (the `TypeError` from evaluating
`None > 0.1`), not a structured empty-index error — `GetRouteResult`, the
handler's outcome space, has no EmptyIndex variant because the code
defines none. -/
theorem claim6_counterexample :
    getRoute noDataGraph argsZero = GetRouteResult.serverError PyErr.noneCompare := rfl

/-- Claim C6 (amended): whenever the vertex table is empty and all four
parameters parse, `get_route` ends in the generic 500 server error
carrying the None-comparison `TypeError`, regardless of the ways table
and of the coordinates. -/
theorem claim6_empty_graph_generic_500 (ws : List Way) (slon slat elon elat : ℚ) :
    getRoute ⟨[], ws⟩ ⟨some slon, some slat, some elon, some elat⟩ =
      GetRouteResult.serverError PyErr.noneCompare := rfl

/-- Claim C9: a request missing any coordinate parameter gets the generic
500 response (the `TypeError` `float(None)` raises), and the dedicated
`Missing coordinates` 400 branch is unreachable on every input — the
`None in (...)` test runs only after all four `float` calls succeeded. -/
theorem claim9_missing_param_generic_500 (g : Graph) (a : RouteArgs) :
    ((a.start_lon = none ∨ a.start_lat = none ∨ a.end_lon = none ∨
        a.end_lat = none) →
      getRoute g a = GetRouteResult.serverError PyErr.floatOfNone) ∧
    getRoute g a ≠ GetRouteResult.missingCoords := by
  obtain ⟨s1, s2, s3, s4⟩ := a
  rcases s1 with _ | q1 <;> rcases s2 with _ | q2 <;> rcases s3 with _ | q3 <;>
    rcases s4 with _ | q4 <;>
    exact ⟨fun h => by first | rfl | simp at h,
      by first
        | (intro hcontra; cases hcontra)
        | exact getRouteCore_ne_missing g _ _⟩

/-- Claim C9 witness: the concrete request with `start_lon` missing. -/
theorem claim9_witness :
    getRoute noDataGraph argsMissing = GetRouteResult.serverError PyErr.floatOfNone ∧
    getRoute noDataGraph argsMissing ≠ GetRouteResult.missingCoords :=
  ⟨(claim9_missing_param_generic_500 noDataGraph argsMissing).1 (Or.inl rfl),
   (claim9_missing_param_generic_500 noDataGraph argsMissing).2⟩

/-- Claim C10: when the nearest vertex to the start coordinate has id 0 and
both snapped distances are within the 0.1-degree threshold (squared:
1/100), `get_route` still answers `Could not snap to network` (404),
because `if not start_vid` treats the integer 0 as missing. -/
theorem claim10_vertex_id_zero_snapfail (g : Graph)
    (slon slat elon elat d1 : ℚ) (v2 : Int) (d2 : ℚ)
    (h1 : nearestVertex g.vertices (slon, slat) = some (0, d1))
    (hd1 : d1 ≤ 1/100)
    (h2 : nearestVertex g.vertices (elon, elat) = some (v2, d2))
    (hd2 : d2 ≤ 1/100) :
    getRoute g ⟨some slon, some slat, some elon, some elat⟩ =
      GetRouteResult.snapFail := by
  have hstep : getRoute g ⟨some slon, some slat, some elon, some elat⟩ =
      getRouteCore g (some ((0 : Int), d1)) (some (v2, d2)) := by
    rw [show getRoute g ⟨some slon, some slat, some elon, some elat⟩ =
          getRouteCore g (nearestVertex g.vertices (slon, slat))
            (nearestVertex g.vertices (elon, elat)) from rfl, h1, h2]
  rw [hstep]
  simp only [getRouteCore, Option.map_some', tooFarTest, pyGtThreshold]
  rw [if_neg (not_lt.mpr hd1), if_neg (not_lt.mpr hd2)]
  simp

/-- Claim C10 witness: a vertex with id 0 at the query point itself. -/
theorem claim10_witness :
    getRoute zeroIdGraph argsZero = GetRouteResult.snapFail :=
  claim10_vertex_id_zero_snapfail zeroIdGraph 0 0 0 0 0 0 0
    (by norm_num [zeroIdGraph, nearestVertex, sqDist, List.foldl])
    (by norm_num)
    (by norm_num [zeroIdGraph, nearestVertex, sqDist, List.foldl])
    (by norm_num)

theorem getRouteCore_tooFar_iff (g : Graph) (v1 : Int) (d1 : ℚ) (v2 : Int) (d2 : ℚ) :
    (getRouteCore g (some (v1, d1)) (some (v2, d2)) =
        GetRouteResult.tooFar d1 d2) ↔
      ((1 : ℚ)/100 < d1 ∨ (1 : ℚ)/100 < d2) := by
  simp only [getRouteCore, Option.map_some', tooFarTest, pyGtThreshold,
    Option.getD_some]
  by_cases hd1 : (1 : ℚ)/100 < d1
  · rw [if_pos hd1]
    exact ⟨fun _ => Or.inl hd1, fun _ => rfl⟩
  · rw [if_neg hd1]
    by_cases hd2 : (1 : ℚ)/100 < d2
    · rw [if_pos hd2]
      exact ⟨fun _ => Or.inr hd2, fun _ => rfl⟩
    · rw [if_neg hd2]
      simp only [hd1, hd2, or_self, iff_false]
      intro hcontra
      split at hcontra
      · simp at hcontra
      · split at hcontra
        · simp at hcontra
        · split at hcontra
          · simp at hcontra
          · simp at hcontra

/-- Claim C3: snapping fails with the too-far 404 exactly when one of the
(squared) snapped distances strictly exceeds the threshold (0.1 degrees,
squared: 1/100); in particular a coordinate at exactly the boundary
distance is accepted. -/
theorem claim3_toofar_iff_strict (g : Graph) (slon slat elon elat : ℚ)
    (v1 : Int) (d1 : ℚ) (v2 : Int) (d2 : ℚ)
    (h1 : nearestVertex g.vertices (slon, slat) = some (v1, d1))
    (h2 : nearestVertex g.vertices (elon, elat) = some (v2, d2)) :
    (getRoute g ⟨some slon, some slat, some elon, some elat⟩ =
        GetRouteResult.tooFar d1 d2) ↔
      ((1 : ℚ)/100 < d1 ∨ (1 : ℚ)/100 < d2) := by
  rw [show getRoute g ⟨some slon, some slat, some elon, some elat⟩ =
        getRouteCore g (nearestVertex g.vertices (slon, slat))
          (nearestVertex g.vertices (elon, elat)) from rfl, h1, h2]
  exact getRouteCore_tooFar_iff g v1 d1 v2 d2

/-- Claim C3 witness: a query at exactly the boundary distance (0.1 deg,
squared 1/100) from the only vertex is NOT rejected as too far. -/
theorem claim3_witness :
    ¬ (getRoute boundaryGraph boundaryArgs =
        GetRouteResult.tooFar (1/100) (1/100)) := by
  have h := claim3_toofar_iff_strict boundaryGraph (1/10) 0 (1/10) 0 1 (1/100)
    1 (1/100)
    (by norm_num [boundaryGraph, nearestVertex, sqDist, List.foldl])
    (by norm_num [boundaryGraph, nearestVertex, sqDist, List.foldl])
  intro hc
  exact absurd (h.mp hc) (by norm_num)

/-- Claim C5 counterexample: on `revGraph` the shortest 1→4 path traverses
way 2 in reverse (row 2 leaves node 2 over way 2, whose source is 3), yet
the assembled features all carry the STORED source→target geometry — the
route polyline is not continuous, and way 2's coordinates were not
reversed. -/
theorem claim5_counterexample :
    getRoute revGraph revArgs = GetRouteResult.ok revPayload ∧
    appPath revGraph 1 4 =
      [⟨1, 1, 1, 0⟩, ⟨2, 2, 1, 1⟩, ⟨3, 3, 1, 2⟩, ⟨4, -1, 0, 3⟩] ∧
    chainOk revPayload.features = false := by
  refine ⟨?_, ?_, ?_⟩
  · norm_num [revGraph, revArgs, revPayload, getRoute, getRouteCore, pyFloat,
      noneIn, nearestVertex, sqDist, tooFarTest, pyGtThreshold, appPath,
      pgrDijkstra, edgesSql, waysArcs, fwdArc, revArc, dijkstraLoop, pickMin,
      entryLt, isSettled, liveEntries, arcsFrom, lookupSettled, rowsOfPath,
      lastRow, payloadOfPath, edgeIdsOfRows, fetchSegments, dedupFirst, findWay,
      List.foldl, List.filterMap_cons, List.filterMap_nil, List.sum_cons,
      List.sum_nil]
  · norm_num [revGraph, appPath, pgrDijkstra, edgesSql, waysArcs, fwdArc, revArc,
      dijkstraLoop, pickMin, entryLt, isSettled, liveEntries, arcsFrom,
      lookupSettled, rowsOfPath, List.foldl]
  · norm_num [revPayload, chainOk, lastCoord, List.head?]

/-- Claim C5 (amended): every feature of a successful `get_route` payload
carries the matching way's STORED geometry and raw length verbatim — no
reversal for reverse-traversed edges ever happens. -/
theorem claim5_features_stored_geometry (g : Graph) (a : RouteArgs)
    (p : RoutePayload) (h : getRoute g a = GetRouteResult.ok p) :
    ∀ f ∈ p.features, ∃ w, w ∈ g.ways ∧ f.id = w.id ∧ f.geometry = w.geom ∧
      f.length_m = w.length_m := by
  obtain ⟨sv, ev, last, hlast, hp⟩ := getRoute_ok_inv h
  intro f hf
  rw [hp] at hf
  simp only [payloadOfPath, List.mem_map] at hf
  obtain ⟨w, hw, rfl⟩ := hf
  refine ⟨w, ?_, rfl, rfl, rfl⟩
  simp only [fetchSegments] at hw
  rcases List.mem_filterMap.mp hw with ⟨i, _, hfind⟩
  exact findWay_mem hfind

/-- Claim C5 witness: the reverse-traversed way's feature (id 2) in the
`revGraph` payload carries way 2's stored geometry. -/
theorem claim5_witness :
    ∃ w, w ∈ revGraph.ways ∧
      (Feature.mk 2 [(2/100, 0), (1/100, 0)] 10).id = w.id ∧
      (Feature.mk 2 [(2/100, 0), (1/100, 0)] 10).geometry = w.geom ∧
      (Feature.mk 2 [(2/100, 0), (1/100, 0)] 10).length_m = w.length_m :=
  claim5_features_stored_geometry revGraph revArgs revPayload
    (by norm_num [revGraph, revArgs, revPayload, getRoute, getRouteCore, pyFloat,
      noneIn, nearestVertex, sqDist, tooFarTest, pyGtThreshold, appPath,
      pgrDijkstra, edgesSql, waysArcs, fwdArc, revArc, dijkstraLoop, pickMin,
      entryLt, isSettled, liveEntries, arcsFrom, lookupSettled, rowsOfPath,
      lastRow, payloadOfPath, edgeIdsOfRows, fetchSegments, dedupFirst, findWay,
      List.foldl, List.filterMap_cons, List.filterMap_nil, List.sum_cons,
      List.sum_nil])
    (Feature.mk 2 [(2/100, 0), (1/100, 0)] 10)
    (by norm_num [revPayload])

/-- Claim C7: for a successful route whose traversed edge ids are distinct
(as Dijkstra paths are), the payload's total distance is the sum of the
traversed ways' lengths, and every reordering of those lengths sums to
the same total. -/
theorem claim7_total_and_order (g : Graph) (a : RouteArgs) (p : RoutePayload)
    (h : getRoute g a = GetRouteResult.ok p)
    (hnd : (routeEdgeIds g p.start_vertex p.end_vertex).Nodup) :
    p.total_distance = (segmentLengths g p.start_vertex p.end_vertex).sum ∧
    ∀ l : List ℚ, l.Perm (segmentLengths g p.start_vertex p.end_vertex) →
      l.sum = p.total_distance := by
  obtain ⟨sv, ev, last, hlast, hp⟩ := getRoute_ok_inv h
  have hsv : p.start_vertex = sv := by rw [hp]; simp [payloadOfPath]
  have hev : p.end_vertex = ev := by rw [hp]; simp [payloadOfPath]
  rw [hsv, hev] at hnd ⊢
  have hnd2 : (edgeIdsOfRows (appPath g sv ev)).Nodup := hnd
  have hfetch : fetchSegments (edgeIdsOfRows (appPath g sv ev)) g.ways =
      (routeEdgeIds g sv ev).filterMap (findWay g.ways) := by
    show (dedupFirst (edgeIdsOfRows (appPath g sv ev))).filterMap
      (fun i => findWay g.ways i) = _
    rw [dedupFirst_eq_self hnd2]
    rfl
  have htd : p.total_distance = (segmentLengths g sv ev).sum := by
    rw [hp]
    simp only [payloadOfPath]
    rw [hfetch]
    rfl
  exact ⟨htd, fun l hl => by rw [List.Perm.sum_eq hl, htd]⟩

/-- Claim C7 witness: the `revGraph` route (edges 1, 2, 3): total distance
30 = 10 + 10 + 10. -/
theorem claim7_witness :
    revPayload.total_distance =
      (segmentLengths revGraph revPayload.start_vertex revPayload.end_vertex).sum :=
  (claim7_total_and_order revGraph revArgs revPayload
    (by norm_num [revGraph, revArgs, revPayload, getRoute, getRouteCore, pyFloat,
      noneIn, nearestVertex, sqDist, tooFarTest, pyGtThreshold, appPath,
      pgrDijkstra, edgesSql, waysArcs, fwdArc, revArc, dijkstraLoop, pickMin,
      entryLt, isSettled, liveEntries, arcsFrom, lookupSettled, rowsOfPath,
      lastRow, payloadOfPath, edgeIdsOfRows, fetchSegments, dedupFirst, findWay,
      List.foldl, List.filterMap_cons, List.filterMap_nil, List.sum_cons,
      List.sum_nil])
    (by norm_num [revGraph, revPayload, routeEdgeIds, appPath, pgrDijkstra,
      edgesSql, waysArcs, fwdArc, revArc, dijkstraLoop, pickMin, entryLt,
      isSettled, liveEntries, arcsFrom, lookupSettled, rowsOfPath, edgeIdsOfRows,
      List.foldl, List.nodup_cons, List.nodup_nil, List.mem_cons,
      List.mem_singleton, List.not_mem_nil])).1

theorem admissibleNearest_unique (vs : List Vertex) (p : Coord)
    (huniq : ∀ v w, minimizesVertex vs p v → minimizesVertex vs p w →
      v.id = w.id)
    (n1 n2 : Option (Int × ℚ))
    (h1 : admissibleNearest vs p n1) (h2 : admissibleNearest vs p n2) :
    n1 = n2 := by
  rcases n1 with _ | ⟨i, d⟩ <;> rcases n2 with _ | ⟨j, e⟩
  · rfl
  · simp only [admissibleNearest] at h1 h2
    obtain ⟨v, hv, _, _⟩ := h2
    rw [h1] at hv
    exact absurd hv.1 (List.not_mem_nil v)
  · simp only [admissibleNearest] at h1 h2
    obtain ⟨v, hv, _, _⟩ := h1
    rw [h2] at hv
    exact absurd hv.1 (List.not_mem_nil v)
  · simp only [admissibleNearest] at h1 h2
    obtain ⟨v, hv, hvi, hvd⟩ := h1
    obtain ⟨w, hw, hwj, hwd⟩ := h2
    subst hvi
    subst hvd
    subst hwj
    subst hwd
    rw [huniq v w hv hw, le_antisymm (hv.2 w hw.1) (hw.2 v hv.1)]

/-- Claim C8 (amended): recomputation is deterministic whenever the
nearest-vertex minimiser is unique (up to id) at both endpoints: any two
outcomes the nearest-vertex SQL contract admits coincide.  (The original
claim fails: the SQL has no vertex-id tie-break — see the
counterexample.) -/
theorem claim8_deterministic_when_unique (g : Graph) (slon slat elon elat : ℚ)
    (r1 r2 : GetRouteResult)
    (hu1 : ∀ v w, minimizesVertex g.vertices (slon, slat) v →
      minimizesVertex g.vertices (slon, slat) w → v.id = w.id)
    (hu2 : ∀ v w, minimizesVertex g.vertices (elon, elat) v →
      minimizesVertex g.vertices (elon, elat) w → v.id = w.id)
    (h1 : getRouteRel g ⟨some slon, some slat, some elon, some elat⟩ r1)
    (h2 : getRouteRel g ⟨some slon, some slat, some elon, some elat⟩ r2) :
    r1 = r2 := by
  simp only [getRouteRel, pyFloat] at h1 h2
  obtain ⟨n1, n2, ha1, ha2, rfl⟩ := h1
  obtain ⟨m1, m2, hb1, hb2, rfl⟩ := h2
  rw [admissibleNearest_unique g.vertices (slon, slat) hu1 n1 m1 ha1 hb1,
    admissibleNearest_unique g.vertices (elon, elat) hu2 n2 m2 ha2 hb2]

/-- Claim C8 counterexample: vertices 2 and 3 are equidistant from the
start coordinate, and the nearest-vertex SQL (which orders by distance
only) admits either; the two choices yield observably different route
responses, so the code does not break the tie by vertex id. -/
theorem claim8_counterexample :
    getRouteRel tieGraph tieArgs tieResultA ∧
    getRouteRel tieGraph tieArgs tieResultB ∧
    tieResultA ≠ tieResultB := by
  have hadm2 : admissibleNearest tieGraph.vertices (0, 0) (some (2, 1/10000)) := by
    refine ⟨⟨2, (1/100, 0)⟩, ⟨by simp [tieGraph], ?_⟩, rfl, by norm_num [sqDist]⟩
    intro w hw
    simp only [tieGraph, List.mem_cons, List.not_mem_nil, or_false] at hw
    rcases hw with rfl | rfl | rfl <;> norm_num [sqDist]
  have hadm3 : admissibleNearest tieGraph.vertices (0, 0) (some (3, 1/10000)) := by
    refine ⟨⟨3, (-1/100, 0)⟩, ⟨by simp [tieGraph], ?_⟩, rfl, by norm_num [sqDist]⟩
    intro w hw
    simp only [tieGraph, List.mem_cons, List.not_mem_nil, or_false] at hw
    rcases hw with rfl | rfl | rfl <;> norm_num [sqDist]
  have hadm1 : admissibleNearest tieGraph.vertices (1, 0) (some (1, 0)) := by
    refine ⟨⟨1, (1, 0)⟩, ⟨by simp [tieGraph], ?_⟩, rfl, by norm_num [sqDist]⟩
    intro w hw
    simp only [tieGraph, List.mem_cons, List.not_mem_nil, or_false] at hw
    rcases hw with rfl | rfl | rfl <;> norm_num [sqDist]
  refine ⟨⟨some (2, 1/10000), some (1, 0), hadm2, hadm1, ?_⟩,
    ⟨some (3, 1/10000), some (1, 0), hadm3, hadm1, ?_⟩, ?_⟩
  · norm_num [tieGraph, tieResultA, getRouteCore, noneIn, tooFarTest,
      pyGtThreshold, appPath, pgrDijkstra, edgesSql, waysArcs, fwdArc, revArc,
      dijkstraLoop, pickMin, entryLt, isSettled, liveEntries, arcsFrom,
      lookupSettled, rowsOfPath, lastRow, payloadOfPath, edgeIdsOfRows,
      fetchSegments, dedupFirst, findWay, List.foldl, List.filterMap_cons,
      List.filterMap_nil, List.sum_cons, List.sum_nil]
  · norm_num [tieGraph, tieResultB, getRouteCore, noneIn, tooFarTest,
      pyGtThreshold, appPath, pgrDijkstra, edgesSql, waysArcs, fwdArc, revArc,
      dijkstraLoop, pickMin, entryLt, isSettled, liveEntries, arcsFrom,
      lookupSettled, rowsOfPath, lastRow, payloadOfPath, edgeIdsOfRows,
      fetchSegments, dedupFirst, findWay, List.foldl, List.filterMap_cons,
      List.filterMap_nil, List.sum_cons, List.sum_nil]
  · norm_num [tieResultA, tieResultB]

/-- Claim C8 witness: on a one-vertex graph the minimiser is unique at both
endpoints and the admitted outcome is unique. -/
theorem claim8_witness :
    GetRouteResult.ok ⟨[], 0, 0, 0, 1, 1⟩ =
      GetRouteResult.ok ⟨[], 0, 0, 0, 1, 1⟩ := by
  have hu : ∀ v w, minimizesVertex boundaryGraph.vertices (0, 0) v →
      minimizesVertex boundaryGraph.vertices (0, 0) w → v.id = w.id := by
    intro v w hv hw
    have hv1 := hv.1
    have hw1 := hw.1
    simp only [boundaryGraph, List.mem_singleton] at hv1 hw1
    rw [hv1, hw1]
  have hadm : admissibleNearest boundaryGraph.vertices (0, 0) (some (1, 0)) := by
    refine ⟨⟨1, (0, 0)⟩, ⟨by simp [boundaryGraph], ?_⟩, rfl, by norm_num [sqDist]⟩
    intro w hw
    simp only [boundaryGraph, List.mem_singleton] at hw
    subst hw
    norm_num
  have hrel : getRouteRel boundaryGraph ⟨some 0, some 0, some 0, some 0⟩
      (GetRouteResult.ok ⟨[], 0, 0, 0, 1, 1⟩) := by
    refine ⟨some (1, 0), some (1, 0), hadm, hadm, ?_⟩
    norm_num [boundaryGraph, getRouteCore, noneIn, tooFarTest, pyGtThreshold,
      appPath, pgrDijkstra, edgesSql, waysArcs, dijkstraLoop, pickMin, entryLt,
      isSettled, liveEntries, arcsFrom, lookupSettled, rowsOfPath, lastRow,
      payloadOfPath, edgeIdsOfRows, fetchSegments, dedupFirst, findWay,
      List.foldl, List.filterMap_nil, List.sum_nil]
  exact claim8_deterministic_when_unique boundaryGraph 0 0 0 0
    (GetRouteResult.ok ⟨[], 0, 0, 0, 1, 1⟩)
    (GetRouteResult.ok ⟨[], 0, 0, 0, 1, 1⟩) hu hu hrel hrel
